import Mathlib

/-!
Verification development for the CascadeStudio CAD-worker core:
the operation cache (`CacheOp`, `ComputeHash`, `stringToHash` from
CascadeStudioStandardUtils), the evaluation session (`Evaluate` from the
CAD worker, with its finally-block cache sweep), the scene accumulator and
`combineAndRenderShapes`, the worker/main-thread message dispatch, and the
`Text3D` standard-library operation.  All definitions are shallow embeddings
translated from the JavaScript source; the geometry kernel and the
tessellator are opaque external collaborators, modelled as parameters.
-/

/-- A JavaScript exception value (only its `message` matters here). -/
structure JsErr where
  message : String
  deriving Repr, DecidableEq

/-- Messages posted from the worker to the main thread (`postMessage`),
plus the diagnostic forwarded by the real `console.error`.  The
`console.error` override posts `resetWorking` synchronously and then
forwards the diagnostic (via a deferred rethrow picked up by
`worker.onerror`); we record both in the trace, in that order. -/
inductive Msg where
  | progress (opNumber : Nat) (opType : Option String)
  | resetWorking
  | errorDiag (s : String)
  | log (s : String)
  | response (ty : String)
  deriving Repr, DecidableEq

/-- Trace of the overridden `console.error`: it synchronously posts a
`resetWorking` message and forwards the diagnostic text. -/
def consoleErrorTrace (s : String) : List Msg :=
  [Msg.resetWorking, Msg.errorDiag s]

/-- An OpenCascade `TopoDS_Shape` as seen by the cache layer: an opaque
geometry payload inside a JS container object.  `id` is the container
identity (`new oc.TopoDS_Shape(x)` makes a container with a fresh `id` and
the same `geom`), `hash` is the signature tag stamped by the cache layer,
`isNull` models `IsNull()`. -/
structure Shape where
  id : Nat
  geom : Nat
  hash : Option Int
  isNull : Bool
  deriving Repr, DecidableEq

-- JSON values, as passed for the `args` of `CacheOp`/`ComputeHash`.
-- Mutual with the spine of arrays and objects so that all recursion over
-- them is structural.
mutual
/-- A JSON value (a JavaScript argument mapping or one of its parts). -/
inductive JVal where
  | jnum (n : Int)
  | jstr (s : String)
  | jbool (b : Bool)
  | jnull
  | jarr (xs : JArr)
  | jobj (fs : JObj)
inductive JArr where
  | anil
  | acons (v : JVal) (rest : JArr)
inductive JObj where
  | onil
  | ocons (k : String) (v : JVal) (rest : JObj)
end

/-- Decimal digit test used by the `-?[0-9]*` parts of the ptr-stripping
regular expressions. -/
def isDig (c : Char) : Bool := '0' ≤ c && c ≤ '9'

/-- Decimal digits of a natural number, most significant first (fuelled so
that it is structurally recursive and kernel-reducible). -/
def natDigitsGo : Nat → Nat → List Char
  | 0, _ => []
  | f + 1, n =>
    if n < 10 then [Char.ofNat (48 + n)]
    else natDigitsGo f (n / 10) ++ [Char.ofNat (48 + n % 10)]

/-- Decimal digits of a natural number, most significant first. -/
def natDigits (n : Nat) : List Char := natDigitsGo (n + 1) n

/-- The characters JavaScript `JSON.stringify` produces for an integral
number (`String(n)`). -/
def intChars (n : Int) : List Char :=
  if n < 0 then '-' :: natDigits n.natAbs else natDigits n.toNat

/-- JSON string escaping of one character (the cases that matter for the
argument strings in this development: quote and backslash). -/
def escChar (c : Char) : List Char :=
  if c == '"' then ['\\', '"']
  else if c == '\\' then ['\\', '\\']
  else [c]

/-- JSON string escaping. -/
def escChars (cs : List Char) : List Char := cs.flatMap escChar

mutual
/-- Model of `JSON.stringify` on a JSON value, as a character list. -/
def stringifyV : JVal → List Char
  | JVal.jnum n => intChars n
  | JVal.jstr s => '"' :: escChars s.data ++ ['"']
  | JVal.jbool b => if b then ['t', 'r', 'u', 'e'] else ['f', 'a', 'l', 's', 'e']
  | JVal.jnull => ['n', 'u', 'l', 'l']
  | JVal.jarr xs => '[' :: stringifyA xs ++ [']']
  | JVal.jobj fs => '{' :: stringifyO fs ++ ['}']
/-- `JSON.stringify` of array elements, comma separated. -/
def stringifyA : JArr → List Char
  | JArr.anil => []
  | JArr.acons v JArr.anil => stringifyV v
  | JArr.acons v rest => stringifyV v ++ ',' :: stringifyA rest
/-- `JSON.stringify` of object fields, comma separated. -/
def stringifyO : JObj → List Char
  | JObj.onil => []
  | JObj.ocons k v JObj.onil => '"' :: escChars k.data ++ '"' :: ':' :: stringifyV v
  | JObj.ocons k v rest =>
      '"' :: escChars k.data ++ '"' :: ':' :: stringifyV v ++ ',' :: stringifyO rest
end

/-- The six characters `"ptr":` that both stripping regexes anchor on. -/
def ptrKey : List Char := ['"', 'p', 't', 'r', '"', ':']

/-- Consume one expected character. -/
def headIs (c : Char) (cs : List Char) : Option (List Char) :=
  match cs with
  | [] => none
  | d :: t => if d == c then some t else none

/-- Try to consume the literal `"ptr":` at the head of the string. -/
def matchPrefix6 (cs : List Char) : Option (List Char) :=
  (((((headIs '"' cs).bind (headIs 'p')).bind (headIs 't')).bind
      (headIs 'r')).bind (headIs '"')).bind (headIs ':')

/-- Consume an optional minus sign (the `-?` of the regexes). -/
def dropMinus (cs : List Char) : List Char :=
  match cs with
  | [] => []
  | c :: t => if c == '-' then t else c :: t

/-- After `"ptr":`, pattern 1 (`\"ptr\":(-?[0-9]*?),`) consumes an optional
minus, a digit run, and then requires a comma.  The lazy `[0-9]*?` followed
by `,` matches exactly the digit run up to the first non-digit, which must
be the comma. -/
def matchNum1 (cs : List Char) : Option (List Char) :=
  match List.dropWhile isDig (dropMinus cs) with
  | [] => none
  | c :: r => if c == ',' then some r else none

/-- After `"ptr":`, pattern 2 (`\"ptr\":(-?[0-9]*)`) consumes an optional
minus and a (possibly empty) digit run, unconditionally. -/
def dropMinusDigits (cs : List Char) : List Char :=
  List.dropWhile isDig (dropMinus cs)

/-- A match of regex 1, `/(\"ptr\"\:(-?[0-9]*?)\,)/`, at the head of the
string: the remainder after the match, or `none`. -/
def matchPtr1 (cs : List Char) : Option (List Char) :=
  match matchPrefix6 cs with
  | none => none
  | some rest => matchNum1 rest

/-- A match of regex 2, `/(\"ptr\"\:(-?[0-9]*))/`, at the head of the
string: the remainder after the match, or `none`. -/
def matchPtr2 (cs : List Char) : Option (List Char) :=
  match matchPrefix6 cs with
  | none => none
  | some rest => some (dropMinusDigits rest)

/-- Global replace-with-empty for regex 1: scan left to right, and on a
match continue after the matched text (JavaScript `String.replace` with
the `g` flag).  Fuelled by the string length so it is structurally
recursive. -/
def strip1Go : Nat → List Char → List Char
  | 0, cs => cs
  | _ + 1, [] => []
  | f + 1, c :: cs =>
    match matchPtr1 (c :: cs) with
    | some rest => strip1Go f rest
    | none => c :: strip1Go f cs

/-- Global replace-with-empty for regex 2 (same scan shape). -/
def strip2Go : Nat → List Char → List Char
  | 0, cs => cs
  | _ + 1, [] => []
  | f + 1, c :: cs =>
    match matchPtr2 (c :: cs) with
    | some rest => strip2Go f rest
    | none => c :: strip2Go f cs

/-- `argsString.replace(/(\"ptr\"\:(-?[0-9]*?)\,)/g, '')`. -/
def stripPtr1 (cs : List Char) : List Char := strip1Go cs.length cs

/-- `argsString.replace(/(\"ptr\"\:(-?[0-9]*))/g, '')`. -/
def stripPtr2 (cs : List Char) : List Char := strip2Go cs.length cs

/-- The sanitized argument string of `ComputeHash`: `JSON.stringify` then
the two ptr-stripping passes, in source order. -/
def sanitizedArgs (args : JVal) : List Char :=
  stripPtr2 (stripPtr1 (stringifyV args))

/-- Substring test, used for `argsString.includes("ptr")`. -/
def containsSub (pat : List Char) : List Char → Bool
  | [] => List.isPrefixOf pat []
  | c :: t => List.isPrefixOf pat (c :: t) || containsSub pat t

/-- The sanity check inside `ComputeHash`: after stripping, does the
argument string still contain `"ptr"`?  If so the source calls
`console.error("YOU DONE MESSED UP YOUR REGEX.")`. -/
def hashCheckFires (args : JVal) : Bool :=
  containsSub ['p', 't', 'r'] (sanitizedArgs args)

/-- Reduction of an integer to JavaScript 32-bit signed semantics
(the effect of `| 0`-style coercions and `&`). -/
def toInt32 (n : Int) : Int := (n + 2 ^ 31) % 2 ^ 32 - 2 ^ 31

/-- One step of the rolling hash: `hash = ((hash << 5) - hash) + char;
hash = hash & hash;`.  `<< 5` wraps to 32 bits, the sum is exact, and
`& hash` coerces back to a 32-bit signed integer. -/
def hashStep (h : Int) (c : Nat) : Int := toInt32 (toInt32 (h * 32) - h + c)

/-- `stringToHash` from CascadeStudioStandardUtils: converts a string to a
32-bit integer by the rolling hash (0 for the empty string). -/
def stringToHash (cs : List Char) : Int :=
  cs.foldl (fun h c => hashStep h c.toNat) 0

/-- `ComputeHash(callee, args)` from CascadeStudioStandardUtils:
`getCalleeName(callee)` (passed here directly as `name`) concatenated with
the sanitized `JSON.stringify` of the arguments, reduced by
`stringToHash`.  (The `raw` mode returns the un-hashed string; it is
`hashStringOf` below.) -/
def hashStringOf (name : String) (args : JVal) : List Char :=
  name.data ++ sanitizedArgs args

/-- The 32-bit signature of an operation name and its argument mapping. -/
def ComputeHash (name : String) (args : JVal) : Int :=
  stringToHash (hashStringOf name args)

/-- The worker-global mutable state touched by the cache and session layer
(`workerGlobals` / CascadeStudioWorkerState): operation counter, current
operation name and line for error attribution, the operation cache
`argCache`, the per-session `usedHashes` set, the scene accumulator
`sceneShapes`, the loaded `fonts`, the `GUIState["Cache?"]` flag.
`nextId` is the allocator for fresh JS container identities and
`computeCount` instruments how many times a `cacheMiss` compute function
has been invoked. -/
structure WorkerState where
  opNumber : Nat
  currentOp : String
  currentLineNumber : Nat
  guiCache : Bool
  argCache : List (Int × Shape)
  usedHashes : List Int
  sceneShapes : List Shape
  fonts : List String
  nextId : Nat
  computeCount : Nat
  deriving Repr, DecidableEq

/-- `usedHashes[curHash] = curHash`: insert a signature into the usage
set (JS object keys are a set; re-inserting is a no-op). -/
def insertHash (h : Int) (l : List Int) : List Int :=
  if l.contains h then l else h :: l

/-- `argCache[hash] = shape`: overwrite-or-append into the cache map. -/
def cacheInsert (h : Int) (v : Shape) : List (Int × Shape) → List (Int × Shape)
  | [] => [(h, v)]
  | (k, w) :: rest => if k == h then (h, v) :: rest else (k, w) :: cacheInsert h v rest

/-- `CheckCache(hash)`: `argCache[hash] || null`. -/
def lookupCache (h : Int) : List (Int × Shape) → Option Shape
  | [] => none
  | (k, v) :: rest => if k == h then some v else lookupCache h rest

/-- The behaviour of a `cacheMiss` compute function, as invoked by
`CacheOp`.  `mkShape` is a kernel operation that builds and returns a
fresh shape (the geometry itself is outside this core); `fail` is a
kernel operation that throws; `text3dBody` is the compute closure of
`Text3D`, which consults `fonts[fontName]`, and when the font is absent
replaces the whole cache (`setArgCache({})`), logs, and returns
`undefined`; `diag` is a compute body that calls the overridden
`console.error` (posting a `resetWorking`) and then continues — the
pattern of `FilletEdges`/`ChamferEdges` ("… Edges Not Found!"),
`GetSolidFromCompound` ("NO SOLIDS FOUND IN SHAPE!"), `GetWire`
("NO WIRES FOUND IN SHAPE!"), and the null-input diagnostics inside
`Difference`. -/
inductive ComputeSpec where
  | mkShape
  | fail (msg : String)
  | text3dBody (fontName : String)
  | diag (msg : String) (rest : ComputeSpec)
  deriving Repr, DecidableEq

/-- Run a compute function: the returned value (`none` models returning
`undefined`), the state as the function leaves it, and the messages it
emitted.  Throwing leaves the state as it was at the throw point;
a `diag` body routes its diagnostic through the `console.error`
override before carrying on. -/
def runCompute : ComputeSpec → WorkerState → Except JsErr (Option Shape) × WorkerState × List Msg
  | ComputeSpec.mkShape, st =>
    (Except.ok (some ⟨st.nextId, st.nextId, none, false⟩),
     { st with nextId := st.nextId + 1 }, [])
  | ComputeSpec.fail m, st => (Except.error ⟨m⟩, st, [])
  | ComputeSpec.text3dBody f, st =>
    if st.fonts.contains f then
      (Except.ok (some ⟨st.nextId, st.nextId, none, false⟩),
       { st with nextId := st.nextId + 1 }, [])
    else
      (Except.ok none, { st with argCache := [] },
       [Msg.log "Font not loaded or found yet!  Try again..."])
  | ComputeSpec.diag m rest, st =>
    match runCompute rest st with
    | (out, st', ms) => (out, st', consoleErrorTrace m ++ ms)

/-- Number of `console.error` calls a compute body makes (each posts one
`resetWorking` through the override). -/
def specResets : ComputeSpec → Nat
  | ComputeSpec.diag _ rest => 1 + specResets rest
  | _ => 0

/-- The TypeError raised by `toReturn.hash = curHash` when the compute
function returned `undefined`. -/
def stampErr : JsErr := ⟨"TypeError: Cannot set properties of undefined"⟩

/-- The miss path of `CacheOp` (`toReturn = cacheMiss(); toReturn.hash =
curHash; if (GUIState["Cache?"]) AddToCache(curHash, toReturn)` and the
final `Progress` message): invoke the compute function.  A throw
propagates uncaught; a returned `undefined` raises `stampErr` at the
`toReturn.hash = curHash` stamp; a returned shape is stamped with the
signature and, if caching is enabled, a fresh duplicate container is
stored in the cache (`AddToCache` makes `new oc.TopoDS_Shape(shape)`
with the hash stamped on it). -/
def cacheMissStep (curHash : Int) (spec : ComputeSpec) (st3 : WorkerState) :
    Except JsErr Shape × WorkerState × List Msg :=
  match runCompute spec st3 with
  | (Except.error e, st4, ms) => (Except.error e, st4, ms)
  | (Except.ok none, st4, ms) => (Except.error stampErr, st4, ms)
  | (Except.ok (some sh), st4, ms) =>
    let toReturn : Shape := { sh with hash := some curHash }
    if st4.guiCache then
      let cacheShape : Shape := ⟨st4.nextId, toReturn.geom, some curHash, toReturn.isNull⟩
      let st5 : WorkerState :=
        { st4 with nextId := st4.nextId + 1,
                   argCache := cacheInsert curHash cacheShape st4.argCache }
      (Except.ok toReturn, st5, ms ++ [Msg.progress st5.opNumber none])
    else
      (Except.ok toReturn, st4, ms ++ [Msg.progress st4.opNumber none])

/-- `CacheOp(callee, args, cacheMiss)` from CascadeStudioStandardUtils,
with `name` standing for `getCalleeName(callee)` and `line` for
`getCallingLocation()[0]` (a stack-inspection oracle).  Steps, in source
order: record current op and line; post a `Progress` message and advance
`opNumber`; compute the signature (whose internal sanity check may call
the overridden `console.error`); record the signature in `usedHashes`
unconditionally; consult the cache (`CheckCache`).  On a hit
(`check && GUIState["Cache?"]`), return a fresh duplicate container
(`new oc.TopoDS_Shape(check)`) tagged with the cached hash
(`toReturn.hash = check.hash`) and post the final `Progress` message.
Otherwise run the miss path `cacheMissStep`. -/
def CacheOp (name : String) (line : Nat) (args : JVal) (spec : ComputeSpec)
    (st : WorkerState) : Except JsErr Shape × WorkerState × List Msg :=
  let st0 : WorkerState := { st with currentOp := name, currentLineNumber := line }
  let ms0 : List Msg := [Msg.progress st0.opNumber (some name)]
  let st1 : WorkerState := { st0 with opNumber := st0.opNumber + 1 }
  let curHash : Int := ComputeHash name args
  let ms1 : List Msg :=
    ms0 ++ (if hashCheckFires args then consoleErrorTrace "YOU DONE MESSED UP YOUR REGEX." else [])
  let st2 : WorkerState := { st1 with usedHashes := insertHash curHash st1.usedHashes }
  match lookupCache curHash st2.argCache, st2.guiCache with
  | some cached, true =>
    let dup : Shape := ⟨st2.nextId, cached.geom, cached.hash, cached.isNull⟩
    let st3 : WorkerState := { st2 with nextId := st2.nextId + 1 }
    (Except.ok dup, st3, ms1 ++ [Msg.progress st3.opNumber none])
  | _, _ =>
    let st3 : WorkerState := { st2 with computeCount := st2.computeCount + 1 }
    match cacheMissStep curHash spec st3 with
    | (out, st4, ms) => (out, st4, ms1 ++ ms)

/-- Wrapper-level guard behaviour of a standard-library operation,
before `CacheOp` is reached.  `pass`: no guard fires (`Box`, `Sphere`,
`Text3D`, ...).  `diagContinue`: the guard calls the overridden
`console.error` and falls through into `CacheOp` (`Offset` and
`RotatedExtrude` on a null input, `Slider` on a fractional precision).
`diagReturn`: the guard calls `console.error` and returns its input
without ever reaching `CacheOp` (`GetWire` "Not a wire shape!",
`GetSolidFromCompound` "Not a compound shape!"). -/
inductive OpGuard where
  | pass
  | diagContinue (msg : String)
  | diagReturn (msg : String) (input : Shape)
  deriving Repr, DecidableEq

/-- Number of `console.error` calls an operation guard makes. -/
def guardResets : OpGuard → Nat
  | OpGuard.pass => 0
  | OpGuard.diagContinue _ => 1
  | OpGuard.diagReturn _ _ => 1

/-- One top-level standard-library operation call in user code
(`Box`, `Sphere`, `Text3D`, ...): its name, source line, argument
mapping, guard behaviour, and compute behaviour. -/
structure OpCall where
  name : String
  line : Nat
  args : JVal
  guard : OpGuard
  compute : ComputeSpec

/-- The guarded core of a standard-library operation: `CacheOp` followed
by `sceneShapes.push(result)` (the push is reached only when `CacheOp`
returns normally). -/
def runOpCore (op : OpCall) (st : WorkerState) : Except JsErr Shape × WorkerState × List Msg :=
  match CacheOp op.name op.line op.args op.compute st with
  | (Except.ok sh, st', ms) =>
    (Except.ok sh, { st' with sceneShapes := st'.sceneShapes ++ [sh] }, ms)
  | (Except.error e, st', ms) => (Except.error e, st', ms)

/-- A top-level standard-library operation: the guard first, then the
`CacheOp`-plus-push core.  A `diagReturn` guard posts its diagnostic and
returns the input shape without reaching `CacheOp`; a `diagContinue`
guard posts its diagnostic and falls through. -/
def runOp (op : OpCall) (st : WorkerState) : Except JsErr Shape × WorkerState × List Msg :=
  match op.guard with
  | OpGuard.pass => runOpCore op st
  | OpGuard.diagContinue msg =>
    match runOpCore op st with
    | (out, st', ms) => (out, st', consoleErrorTrace msg ++ ms)
  | OpGuard.diagReturn msg input => (Except.ok input, st, consoleErrorTrace msg)

/-- Run a sequence of operation calls; the first uncaught throw aborts
the rest (JS exception propagation out of `eval`). -/
def runProg : List OpCall → WorkerState → Except JsErr Unit × WorkerState × List Msg
  | [], st => (Except.ok (), st, [])
  | op :: rest, st =>
    match runOp op st with
    | (Except.ok _, st', ms) =>
      match runProg rest st' with
      | (out, st'', ms') => (out, st'', ms ++ ms')
    | (Except.error e, st', ms) => (Except.error e, st', ms)

/-- A user program as evaluated by `runCode`/`eval`: a sequence of
standard-library operation calls, optionally followed by a raw throw in
the user code itself. -/
structure UserProg where
  ops : List OpCall
  finalThrow : Option JsErr

/-- `runCode(payload.code)`: evaluate the user program. -/
def runCode (p : UserProg) (st : WorkerState) : Except JsErr Unit × WorkerState × List Msg :=
  match runProg p.ops st with
  | (Except.ok _, st', ms) =>
    match p.finalThrow with
    | some e => (Except.error e, st', ms)
    | none => (Except.ok (), st', ms)
  | (Except.error e, st', ms) => (Except.error e, st', ms)

/-- The state mutations at the head of `Evaluate`:
`workerGlobals.opNumber = 0; workerGlobals.GUIState = payload.GUIState`
(of the GUI state only the `"Cache?"` flag is read by this core). -/
def sessionStart (gui : Bool) (st : WorkerState) : WorkerState :=
  { st with opNumber := 0, guiCache := gui }

/-- The `finally` block of `Evaluate`: delete every `argCache` entry whose
signature is not in `usedHashes`, then reset `usedHashes` to empty. -/
def sweepCache (st : WorkerState) : WorkerState :=
  { st with argCache := st.argCache.filter (fun p => st.usedHashes.contains p.1),
            usedHashes := [] }

/-- The `Evaluate` message handler: reset the operation counter, install
the GUI state, run the user code (`try`), and in `finally` post
`resetWorking` and sweep the cache.  The `catch` block annotates the
error with the current line and operation and rethrows it asynchronously
(via `setTimeout`), so it contributes nothing to the synchronous trace or
state.  Returns the final state and the posted messages in order. -/
def Evaluate (gui : Bool) (p : UserProg) (st : WorkerState) : WorkerState × List Msg :=
  match runCode p (sessionStart gui st) with
  | (_, st1, ms) => (sweepCache st1, ms ++ [Msg.resetWorking])

/-- The per-shape validity scan of the `combineAndRenderShapes` loop:
null shapes are skipped with a `console.error` diagnostic, the rest are
added to the compound (returned in order). -/
def scanShapes : List Shape → List Shape × List Msg
  | [] => ([], [])
  | s :: rest =>
    match scanShapes rest with
    | (vs, ms) =>
      if s.isNull then
        (vs, consoleErrorTrace "Null Shape detected in sceneShapes; skipping" ++ ms)
      else (s :: vs, ms)

/-- The `combineAndRenderShapes` message handler.  `tess` is the external
`ShapeToMesh` tessellator (an opaque collaborator that may throw),
applied to the valid shapes accumulated into the compound.  With a
non-empty accumulator: post progress, scan the shapes, post progress,
tessellate; on success clear the accumulator (`resetSceneShapes`) and
return the mesh; a tessellator throw propagates and leaves the
accumulator untouched.  With an empty accumulator: `console.error` a
diagnostic and return `undefined` (`none`) without raising. -/
def combineAndRenderShapes (tess : List Shape → Except JsErr Nat)
    (st : WorkerState) : Except JsErr (Option Nat) × WorkerState × List Msg :=
  let ms0 : List Msg := [Msg.progress st.opNumber (some "Combining Shapes")]
  let st1 : WorkerState := { st with opNumber := st.opNumber + 1 }
  if st1.sceneShapes.length > 0 then
    match scanShapes st1.sceneShapes with
    | (valid, diagMs) =>
      let ms1 : List Msg :=
        ms0 ++ diagMs ++ [Msg.progress st1.opNumber (some "Triangulating Faces")]
      let st2 : WorkerState := { st1 with opNumber := st1.opNumber + 1 }
      match tess valid with
      | Except.error e => (Except.error e, st2, ms1)
      | Except.ok mesh =>
        let st3 : WorkerState := { st2 with sceneShapes := [] }
        (Except.ok (some mesh), st3, ms1 ++ [Msg.progress st3.opNumber (some "")])
  else
    (Except.ok none, st1,
     ms0 ++ consoleErrorTrace "There were no scene shapes returned!"
         ++ [Msg.progress st1.opNumber (some "")])

/-- Message dispatch in the execution context (the CAD worker's
`onmessage`): `messageHandlers[e.data.type](e.data.payload)` with no
registration guard — an unregistered type makes the lookup yield
`undefined` and the call raises a TypeError before any handler state
change; a registered handler's truthy response is posted back tagged
with the same type. -/
def workerOnMessage (σ : Type) (handlers : List (String × (σ → σ × Option Nat)))
    (ty : String) (st : σ) : Except JsErr (Option Msg) × σ :=
  match handlers.find? (fun p => p.1 == ty) with
  | none => (Except.error ⟨"TypeError: messageHandlers[e.data.type] is not a function"⟩, st)
  | some h =>
    match h.2 st with
    | (st', r) => (Except.ok (r.map fun _ => Msg.response ty), st')

/-- Message dispatch on the control thread (`workerInit.js`):
`if (e.data.type in messageHandlers)` — an unregistered type is ignored
without raising and without touching any state. -/
def mainThreadOnMessage (σ : Type) (handlers : List (String × (σ → σ × Option Nat)))
    (ty : String) (st : σ) : σ × Option Msg :=
  match handlers.find? (fun p => p.1 == ty) with
  | none => (st, none)
  | some h =>
    match h.2 st with
    | (st', r) => (st', r.map fun _ => Msg.response ty)

/-- The argument mapping `{ text, size, height, fontName }` of `Text3D`. -/
def text3dArgs (text : String) (size height : Int) (fontName : String) : JVal :=
  JVal.jobj (JObj.ocons "text" (JVal.jstr text)
    (JObj.ocons "size" (JVal.jnum size)
      (JObj.ocons "height" (JVal.jnum height)
        (JObj.ocons "fontName" (JVal.jstr fontName) JObj.onil))))

/-- The `Text3D` standard-library operation: `CacheOp(Text3D, { text,
size, height, fontName }, body)` followed by `sceneShapes.push(curText)`,
where `body` checks `fonts[fontName]` (see `ComputeSpec.text3dBody`). -/
def Text3D (text : String) (size height : Int) (fontName : String) (line : Nat)
    (st : WorkerState) : Except JsErr Shape × WorkerState × List Msg :=
  runOp ⟨"Text3D", line, text3dArgs text size height fontName,
         OpGuard.pass, ComputeSpec.text3dBody fontName⟩ st

/-- Number of `resetWorking` notifications in a message trace. -/
def countResetWorking (ms : List Msg) : Nat :=
  (ms.filter fun m => match m with | Msg.resetWorking => true | _ => false).length

/-- Concrete initial worker state (all counters zero, empty cache, usage
set, scene, and font table, caching enabled), used by witnesses and
counterexamples. -/
def initState : WorkerState := ⟨0, "", 0, true, [], [], [], [], 0, 0⟩

/-- Fixture: the argument mapping `{ "x": 1 }`. -/
def boxArgs : JVal := JVal.jobj (JObj.ocons "x" (JVal.jnum 1) JObj.onil)

/-- Fixture: a one-operation program whose compute function succeeds. -/
def witProg : UserProg := ⟨[⟨"Box", 7, boxArgs, OpGuard.pass, ComputeSpec.mkShape⟩], none⟩

/-- Fixture: a worker state left by an earlier session, whose cache
already holds an entry under the signature of `Box` with `boxArgs`
(the sweep keeps used entries across sessions by design). -/
def warmBoxState : WorkerState :=
  { initState with
      argCache := [(ComputeHash "Box" boxArgs,
                    ⟨3, 4, some (ComputeHash "Box" boxArgs), false⟩)] }

/-- Fixture: a one-operation program whose compute function throws. -/
def failProg : UserProg := ⟨[⟨"Sphere", 2, boxArgs, OpGuard.pass, ComputeSpec.fail "kernel error"⟩], none⟩

/-- Fixture: a program whose single operation takes the argument mapping
`{ "x": "ptr" }`: its serialized form still contains `ptr` after
sanitization, so `ComputeHash` runs its `console.error` sanity branch. -/
def ptrStrProg : UserProg :=
  ⟨[⟨"f", 1, JVal.jobj (JObj.ocons "x" (JVal.jstr "ptr") JObj.onil),
     OpGuard.pass, ComputeSpec.mkShape⟩], none⟩

/-- Fixture: a valid shape sitting in the scene accumulator. -/
def shape0 : Shape := ⟨0, 0, none, false⟩

/-- Fixture: a worker state whose scene accumulator is non-empty. -/
def sceneState : WorkerState := { initState with sceneShapes := [shape0] }

/-- Fixture: the signature of `Text3D("hi", 36, 1, "Consolas")`. -/
def hText : Int := ComputeHash "Text3D" (text3dArgs "hi" 36 1 "Consolas")

/-- Fixture: a shape container cached under `hText`. -/
def cachedText : Shape := ⟨5, 7, some hText, false⟩

/-- Fixture: a state whose operation cache already holds an entry under
the Text3D signature while no fonts are loaded. -/
def warmFontlessState : WorkerState :=
  { initState with argCache := [(hText, cachedText)], nextId := 10 }

/-- A character list is "ambiguous" when a `"ptr":` match could begin at
its head (it is a nonempty prefix of `"ptr":`, or starts with it). -/
def ambiguous (s : List Char) : Bool :=
  List.isPrefixOf s ptrKey || List.isPrefixOf ptrKey s

/-- No suffix of the list can begin a `"ptr":` match (checked
position-by-position; decidable on concrete strings). -/
def clean : List Char → Bool
  | [] => true
  | c :: rest => !ambiguous (c :: rest) && clean rest

/-- Schematic argument mapping with a trailing ptr field. -/
def objPtrLast (n : Int) : JVal :=
  JVal.jobj (JObj.ocons "a" (JVal.jnum 1) (JObj.ocons "ptr" (JVal.jnum n) JObj.onil))

/-- Schematic argument mapping with a leading ptr field. -/
def objPtrFirst (n : Int) : JVal :=
  JVal.jobj (JObj.ocons "ptr" (JVal.jnum n) (JObj.ocons "a" (JVal.jnum 1) JObj.onil))

/-- Schematic argument mapping with no ptr field. -/
def objNoPtr : JVal := JVal.jobj (JObj.ocons "a" (JVal.jnum 1) JObj.onil)

/-- Schematic argument mapping with a ptr field nested one level down. -/
def objNested (n : Int) : JVal :=
  JVal.jobj (JObj.ocons "b"
    (JVal.jobj (JObj.ocons "c" (JVal.jnum 2) (JObj.ocons "ptr" (JVal.jnum n) JObj.onil)))
    (JObj.ocons "d" (JVal.jnum 3) JObj.onil))

/-- Helper: looking a key up in a key-filtered cache. -/
theorem lookup_filter_key (P : Int → Bool) :
    ∀ (m : List (Int × Shape)) (h : Int),
      lookupCache h (m.filter fun p => P p.1) =
        if P h then lookupCache h m else none := by
  intro m
  induction m with
  | nil => intro h; simp [lookupCache]
  | cons kv rest ih =>
    intro h
    obtain ⟨k, v⟩ := kv
    by_cases hk : k = h
    · subst hk
      by_cases hp : P k
      · simp [lookupCache, hp]
      · simp [lookupCache, hp, ih]
    · have hbeq : (k == h) = false := by simp [hk]
      by_cases hp : P k
      · simp [lookupCache, hp, hbeq, ih h]
      · simp [lookupCache, hp, hbeq, ih h]

/-- Helper: a freshly inserted cache entry is found by its key. -/
theorem lookup_cacheInsert_self (h : Int) (v : Shape) :
    ∀ m, lookupCache h (cacheInsert h v m) = some v := by
  intro m
  induction m with
  | nil => simp [cacheInsert, lookupCache]
  | cons kv rest ih =>
    obtain ⟨k, w⟩ := kv
    by_cases hk : k = h
    · subst hk; simp [cacheInsert, lookupCache]
    · have hbeq : (k == h) = false := by simp [hk]
      simp [cacheInsert, lookupCache, hbeq, ih]

/-- Helper: the usage set contains a signature just inserted into it. -/
theorem insertHash_contains_self (h : Int) (l : List Int) :
    (insertHash h l).contains h = true := by
  unfold insertHash
  by_cases hc : l.contains h = true
  · rw [if_pos hc]; exact hc
  · rw [if_neg hc]
    simp [List.elem_iff]

/-- Helper: membership in the usage set after an insert. -/
theorem insertHash_contains (h x : Int) (l : List Int) :
    (insertHash h l).contains x = true → x = h ∨ l.contains x = true := by
  unfold insertHash
  by_cases hc : l.contains h = true
  · rw [if_pos hc]; intro hx; exact Or.inr hx
  · rw [if_neg hc]
    intro hx
    rw [List.elem_iff, List.mem_cons] at hx
    rcases hx with hx | hx
    · exact Or.inl hx
    · exact Or.inr (by rw [List.elem_iff]; exact hx)

theorem countResetWorking_append (a b : List Msg) :
    countResetWorking (a ++ b) = countResetWorking a + countResetWorking b := by
  simp [countResetWorking, List.filter_append]

theorem runCompute_usedHashes (spec : ComputeSpec) (st : WorkerState) :
    (runCompute spec st).2.1.usedHashes = st.usedHashes := by
  induction spec with
  | mkShape => simp [runCompute]
  | fail m => simp [runCompute]
  | text3dBody f => simp [runCompute]; split <;> simp
  | diag m rest ih =>
    rcases hrc : runCompute rest st with ⟨out, st', ms⟩
    rw [hrc] at ih
    simp [runCompute, hrc]
    simpa using ih

theorem runCompute_guiCache (spec : ComputeSpec) (st : WorkerState) :
    (runCompute spec st).2.1.guiCache = st.guiCache := by
  induction spec with
  | mkShape => simp [runCompute]
  | fail m => simp [runCompute]
  | text3dBody f => simp [runCompute]; split <;> simp
  | diag m rest ih =>
    rcases hrc : runCompute rest st with ⟨out, st', ms⟩
    rw [hrc] at ih
    simp [runCompute, hrc]
    simpa using ih

theorem runCompute_sceneShapes (spec : ComputeSpec) (st : WorkerState) :
    (runCompute spec st).2.1.sceneShapes = st.sceneShapes := by
  induction spec with
  | mkShape => simp [runCompute]
  | fail m => simp [runCompute]
  | text3dBody f => simp [runCompute]; split <;> simp
  | diag m rest ih =>
    rcases hrc : runCompute rest st with ⟨out, st', ms⟩
    rw [hrc] at ih
    simp [runCompute, hrc]
    simpa using ih

theorem runCompute_resets (spec : ComputeSpec) (st : WorkerState) :
    countResetWorking (runCompute spec st).2.2 = specResets spec := by
  induction spec with
  | mkShape => simp [runCompute, specResets, countResetWorking]
  | fail m => simp [runCompute, specResets, countResetWorking]
  | text3dBody f =>
    simp [runCompute, specResets, countResetWorking]
    split <;> simp
  | diag m rest ih =>
    rcases hrc : runCompute rest st with ⟨out, st', ms⟩
    rw [hrc] at ih
    simp [runCompute, hrc, specResets, countResetWorking_append, consoleErrorTrace,
          countResetWorking] at ih ⊢
    omega

theorem cacheMissStep_usedHashes (h : Int) (spec : ComputeSpec) (st : WorkerState) :
    (cacheMissStep h spec st).2.1.usedHashes = st.usedHashes := by
  rcases hrc : runCompute spec st with ⟨out, st4, ms⟩
  have h4 : st4.usedHashes = st.usedHashes := by
    have := congrArg (fun r => r.2.1.usedHashes) hrc
    simpa [runCompute_usedHashes] using this.symm
  rcases out with e | sh
  · simp [cacheMissStep, hrc, h4]
  · rcases sh with _ | sh
    · simp [cacheMissStep, hrc, h4]
    · simp [cacheMissStep, hrc]; split <;> simp [h4]

theorem cacheMissStep_guiCache (h : Int) (spec : ComputeSpec) (st : WorkerState) :
    (cacheMissStep h spec st).2.1.guiCache = st.guiCache := by
  rcases hrc : runCompute spec st with ⟨out, st4, ms⟩
  have h4 : st4.guiCache = st.guiCache := by
    have := congrArg (fun r => r.2.1.guiCache) hrc
    simpa [runCompute_guiCache] using this.symm
  rcases out with e | sh
  · simp [cacheMissStep, hrc, h4]
  · rcases sh with _ | sh
    · simp [cacheMissStep, hrc, h4]
    · simp [cacheMissStep, hrc]; split <;> simp [h4]

theorem cacheMissStep_sceneShapes (h : Int) (spec : ComputeSpec) (st : WorkerState) :
    (cacheMissStep h spec st).2.1.sceneShapes = st.sceneShapes := by
  rcases hrc : runCompute spec st with ⟨out, st4, ms⟩
  have h4 : st4.sceneShapes = st.sceneShapes := by
    have := congrArg (fun r => r.2.1.sceneShapes) hrc
    simpa [runCompute_sceneShapes] using this.symm
  rcases out with e | sh
  · simp [cacheMissStep, hrc, h4]
  · rcases sh with _ | sh
    · simp [cacheMissStep, hrc, h4]
    · simp [cacheMissStep, hrc]; split <;> simp [h4]

theorem cacheMissStep_resets (h : Int) (spec : ComputeSpec) (st : WorkerState) :
    countResetWorking (cacheMissStep h spec st).2.2 = specResets spec := by
  rcases hrc : runCompute spec st with ⟨out, st4, ms⟩
  have h4 : countResetWorking ms = specResets spec := by
    have := congrArg (fun r => countResetWorking r.2.2) hrc
    simpa [runCompute_resets] using this.symm
  rcases out with e | sh
  · simp [cacheMissStep, hrc, h4]
  · rcases sh with _ | sh
    · simp [cacheMissStep, hrc, h4]
    · simp [cacheMissStep, hrc]
      split <;>
        (simp [countResetWorking_append, countResetWorking]
         simpa [countResetWorking] using h4)

theorem CacheOp_usedHashes (name : String) (line : Nat) (args : JVal)
    (spec : ComputeSpec) (st : WorkerState) :
    (CacheOp name line args spec st).2.1.usedHashes =
      insertHash (ComputeHash name args) st.usedHashes := by
  unfold CacheOp
  dsimp only
  split <;> split <;> simp [cacheMissStep_usedHashes]

theorem CacheOp_guiCache (name : String) (line : Nat) (args : JVal)
    (spec : ComputeSpec) (st : WorkerState) :
    (CacheOp name line args spec st).2.1.guiCache = st.guiCache := by
  unfold CacheOp
  dsimp only
  split <;> split <;> simp [cacheMissStep_guiCache]

theorem CacheOp_sceneShapes (name : String) (line : Nat) (args : JVal)
    (spec : ComputeSpec) (st : WorkerState) :
    (CacheOp name line args spec st).2.1.sceneShapes = st.sceneShapes := by
  unfold CacheOp
  dsimp only
  split <;> split <;> simp [cacheMissStep_sceneShapes]

theorem cacheMissStep_no_reset (h : Int) (spec : ComputeSpec) (st : WorkerState)
    (hz : specResets spec = 0) :
    ∀ a ∈ (cacheMissStep h spec st).2.2,
      (match a with | Msg.resetWorking => true | _ => false) = false := by
  have hr := cacheMissStep_resets h spec st
  rw [hz] at hr
  simpa [countResetWorking, List.length_eq_zero, List.filter_eq_nil] using hr

theorem CacheOp_resets_zero (name : String) (line : Nat) (args : JVal)
    (spec : ComputeSpec) (st : WorkerState)
    (h1 : hashCheckFires args = false) (h2 : specResets spec = 0) :
    countResetWorking (CacheOp name line args spec st).2.2 = 0 := by
  unfold CacheOp
  dsimp only
  rw [h1]
  split <;>
    simp [countResetWorking_append, countResetWorking, consoleErrorTrace] <;>
    exact cacheMissStep_no_reset _ _ _ h2

theorem runOpCore_usedHashes (op : OpCall) (st : WorkerState) :
    (runOpCore op st).2.1.usedHashes =
      insertHash (ComputeHash op.name op.args) st.usedHashes := by
  rcases hco : CacheOp op.name op.line op.args op.compute st with ⟨out, st', ms⟩
  have h1 : st'.usedHashes = insertHash (ComputeHash op.name op.args) st.usedHashes := by
    have hx := CacheOp_usedHashes op.name op.line op.args op.compute st
    rw [hco] at hx; exact hx
  rcases out with e | sh <;> simp [runOpCore, hco] <;> exact h1

theorem runOpCore_guiCache (op : OpCall) (st : WorkerState) :
    (runOpCore op st).2.1.guiCache = st.guiCache := by
  rcases hco : CacheOp op.name op.line op.args op.compute st with ⟨out, st', ms⟩
  have h1 : st'.guiCache = st.guiCache := by
    have hx := CacheOp_guiCache op.name op.line op.args op.compute st
    rw [hco] at hx; exact hx
  rcases out with e | sh <;> simp [runOpCore, hco] <;> exact h1

theorem runOpCore_resets_zero (op : OpCall) (st : WorkerState)
    (h1 : hashCheckFires op.args = false) (h2 : specResets op.compute = 0) :
    countResetWorking (runOpCore op st).2.2 = 0 := by
  rcases hco : CacheOp op.name op.line op.args op.compute st with ⟨out, st', ms⟩
  have hz : countResetWorking ms = 0 := by
    have hx := CacheOp_resets_zero op.name op.line op.args op.compute st h1 h2
    rw [hco] at hx; exact hx
  rcases out with e | sh <;> simp [runOp, runOpCore, hco] <;> exact hz

theorem runOp_used_origin (op : OpCall) (st : WorkerState) (s : Int) :
    ((runOp op st).2.1.usedHashes).contains s = true →
    st.usedHashes.contains s = true ∨ s = ComputeHash op.name op.args := by
  intro h
  cases hg : op.guard with
  | pass =>
    rw [runOp, hg] at h
    have hcore := runOpCore_usedHashes op st
    rw [hcore] at h
    rcases insertHash_contains (ComputeHash op.name op.args) s st.usedHashes h with hs | hs
    · exact Or.inr hs
    · exact Or.inl hs
  | diagContinue msg =>
    rw [runOp, hg] at h
    rcases hrc : runOpCore op st with ⟨out, st', ms⟩
    rw [hrc] at h
    have hcore := runOpCore_usedHashes op st
    rw [hrc] at hcore
    have hx : (insertHash (ComputeHash op.name op.args) st.usedHashes).contains s = true := by
      rw [← hcore]; simpa using h
    rcases insertHash_contains (ComputeHash op.name op.args) s st.usedHashes hx with hs | hs
    · exact Or.inr hs
    · exact Or.inl hs
  | diagReturn msg input =>
    rw [runOp, hg] at h
    exact Or.inl (by simpa using h)

theorem runOp_guiCache (op : OpCall) (st : WorkerState) :
    (runOp op st).2.1.guiCache = st.guiCache := by
  cases hg : op.guard with
  | pass => rw [runOp, hg]; exact runOpCore_guiCache op st
  | diagContinue msg =>
    rw [runOp, hg]
    rcases hrc : runOpCore op st with ⟨out, st', ms⟩
    have hcore := runOpCore_guiCache op st
    rw [hrc] at hcore
    simpa using hcore
  | diagReturn msg input => rw [runOp, hg]

theorem runOp_resets_zero (op : OpCall) (st : WorkerState)
    (h1 : hashCheckFires op.args = false) (h2 : specResets op.compute = 0)
    (h3 : guardResets op.guard = 0) :
    countResetWorking (runOp op st).2.2 = 0 := by
  cases hg : op.guard with
  | pass => rw [runOp, hg]; exact runOpCore_resets_zero op st h1 h2
  | diagContinue msg => rw [hg] at h3; simp [guardResets] at h3
  | diagReturn msg input => rw [hg] at h3; simp [guardResets] at h3

theorem runProg_used_origin (ops : List OpCall) :
    ∀ (st : WorkerState) (s : Int),
      ((runProg ops st).2.1.usedHashes).contains s = true →
      st.usedHashes.contains s = true ∨
        ∃ op ∈ ops, s = ComputeHash op.name op.args := by
  induction ops with
  | nil => intro st s h; exact Or.inl (by simpa [runProg] using h)
  | cons op rest ih =>
    intro st s h
    rcases hro : runOp op st with ⟨out, st', ms⟩
    have horig : st'.usedHashes.contains s = true →
        st.usedHashes.contains s = true ∨ s = ComputeHash op.name op.args := by
      intro hx
      have hoo := runOp_used_origin op st s
      rw [hro] at hoo
      exact hoo (by simpa using hx)
    rcases out with e | sh
    · simp [runProg, hro] at h
      rcases horig (by simpa using h) with hs | hs
      · exact Or.inl hs
      · exact Or.inr ⟨op, by simp, hs⟩
    · rcases hrp : runProg rest st' with ⟨out2, st'', ms2⟩
      simp [runProg, hro, hrp] at h
      rcases ih st' s (by rw [hrp]; simpa using h) with hs | hs
      · rcases horig hs with hs' | hs'
        · exact Or.inl hs'
        · exact Or.inr ⟨op, by simp, hs'⟩
      · rcases hs with ⟨op', hmem, hval⟩
        exact Or.inr ⟨op', by simp [hmem], hval⟩

theorem runProg_resets_zero (ops : List OpCall) :
    ∀ st : WorkerState,
      (∀ op ∈ ops, hashCheckFires op.args = false ∧ specResets op.compute = 0 ∧
        guardResets op.guard = 0) →
      countResetWorking (runProg ops st).2.2 = 0 := by
  induction ops with
  | nil => intro st _; simp [runProg, countResetWorking]
  | cons op rest ih =>
    intro st hall
    rcases hro : runOp op st with ⟨out, st', ms⟩
    obtain ⟨hop1, hop2, hop3⟩ := hall op (by simp)
    have h1 : countResetWorking ms = 0 := by
      have hx := runOp_resets_zero op st hop1 hop2 hop3
      rw [hro] at hx; exact hx
    rcases out with e | sh
    · simp [runProg, hro]; exact h1
    · rcases hrp : runProg rest st' with ⟨out2, st'', ms2⟩
      have h2 : countResetWorking ms2 = 0 := by
        have hx := ih st' (fun o ho => hall o (by simp [ho]))
        rw [hrp] at hx; exact hx
      simp [runProg, hro, hrp, countResetWorking_append, h1, h2]

theorem runCode_state (p : UserProg) (st : WorkerState) :
    (runCode p st).2.1 = (runProg p.ops st).2.1 ∧
    (runCode p st).2.2 = (runProg p.ops st).2.2 := by
  rcases hrp : runProg p.ops st with ⟨out, st', ms⟩
  rcases out with e | u <;> rcases hft : p.finalThrow with _ | e' <;>
    simp [runCode, hrp, hft]

/-- Claim C6: every call to `CacheOp` adds the computed signature to the
usage set unconditionally — on a cache hit, on a cache miss, when caching
is disabled, and even when the compute function throws — so the eviction
sweep sees every signature consulted during the session. -/
theorem cacheop_records_usage_unconditionally (name : String) (line : Nat)
    (args : JVal) (spec : ComputeSpec) (st : WorkerState) :
    ((CacheOp name line args spec st).2.1.usedHashes).contains
        (ComputeHash name args) = true := by
  rw [CacheOp_usedHashes]
  exact insertHash_contains_self _ _

/-- Claim C5: when the compute function of an operation throws (and it is
actually invoked, i.e. the call is not served from the cache), `CacheOp`
propagates the failure to its caller uncaught, and the operation cache is
left exactly as it was before the call. -/
theorem cacheop_failure_propagates (name : String) (line : Nat) (args : JVal)
    (msg : String) (st : WorkerState)
    (h : lookupCache (ComputeHash name args) st.argCache = none ∨ st.guiCache = false) :
    (CacheOp name line args (ComputeSpec.fail msg) st).1 = Except.error ⟨msg⟩ ∧
    (CacheOp name line args (ComputeSpec.fail msg) st).2.1.argCache = st.argCache := by
  unfold CacheOp
  dsimp only
  rcases h with h | h
  · rw [h]
    simp [cacheMissStep, runCompute]
  · rw [h]
    cases hl : lookupCache (ComputeHash name args) st.argCache <;>
      simp [cacheMissStep, runCompute]

/-- Witness for C5 at a concrete input: a throwing compute function on an
empty cache. -/
theorem cacheop_failure_propagates_witness :
    (CacheOp "Box" 1 boxArgs (ComputeSpec.fail "kernel error") initState).1 =
        Except.error ⟨"kernel error"⟩ ∧
    (CacheOp "Box" 1 boxArgs (ComputeSpec.fail "kernel error") initState).2.1.argCache =
        initState.argCache :=
  cacheop_failure_propagates "Box" 1 boxArgs "kernel error" initState (Or.inl rfl)

/-- Claim C1: after the `Evaluate` handler finishes — whether the user
code succeeded or threw — the operation cache contains exactly those of
its entries whose signature is in the usage set (entries with a recorded
signature are kept, the rest are deleted), every signature in the usage
set at sweep time was recorded during this session (given that the
session starts with an empty usage set, as every session boundary
guarantees), and the usage set is then reset to empty. -/
theorem evaluate_evicts_unused_exactly (gui : Bool) (p : UserProg)
    (st : WorkerState) (h0 : st.usedHashes = []) :
    (∀ s sh, lookupCache s ((Evaluate gui p st).1.argCache) = some sh ↔
        (lookupCache s ((runCode p (sessionStart gui st)).2.1.argCache) = some sh ∧
         ((runCode p (sessionStart gui st)).2.1.usedHashes).contains s = true)) ∧
    (∀ s, ((runCode p (sessionStart gui st)).2.1.usedHashes).contains s = true →
        ∃ op ∈ p.ops, s = ComputeHash op.name op.args) ∧
    (Evaluate gui p st).1.usedHashes = [] := by
  rcases hrc : runCode p (sessionStart gui st) with ⟨out, mid, ms⟩
  have hev : Evaluate gui p st = (sweepCache mid, ms ++ [Msg.resetWorking]) := by
    unfold Evaluate
    rw [hrc]
  refine ⟨?_, ?_, ?_⟩
  · intro s sh
    rw [hev]
    have hf := lookup_filter_key (fun k => mid.usedHashes.contains k) mid.argCache s
    constructor
    · intro hsome
      have : (if mid.usedHashes.contains s then lookupCache s mid.argCache else none)
          = some sh := by
        rw [← hf]; exact hsome
      by_cases hc : mid.usedHashes.contains s = true
      · rw [if_pos hc] at this; exact ⟨this, hc⟩
      · rw [if_neg hc] at this; cases this
    · intro hconj
      show lookupCache s ((sweepCache mid).argCache) = some sh
      unfold sweepCache
      dsimp only
      rw [hf, if_pos hconj.2]
      exact hconj.1
  · intro s hs
    have hmid : mid = (runProg p.ops (sessionStart gui st)).2.1 := by
      have hx := (runCode_state p (sessionStart gui st)).1
      rw [hrc] at hx
      simpa using hx
    rw [hmid] at hs
    have := runProg_used_origin p.ops (sessionStart gui st) s hs
    rcases this with hbad | hok
    · exfalso
      have : (sessionStart gui st).usedHashes = [] := by
        simp [sessionStart, h0]
      rw [this] at hbad
      simp at hbad
    · exact hok
  · rw [hev]
    rfl

/-- Witness for C1 at a concrete input: a one-operation session starting
from the empty initial state. -/
theorem evaluate_evicts_unused_exactly_witness :
    (∀ s sh, lookupCache s ((Evaluate true witProg initState).1.argCache) = some sh ↔
        (lookupCache s ((runCode witProg (sessionStart true initState)).2.1.argCache) = some sh ∧
         ((runCode witProg (sessionStart true initState)).2.1.usedHashes).contains s = true)) ∧
    (∀ s, ((runCode witProg (sessionStart true initState)).2.1.usedHashes).contains s = true →
        ∃ op ∈ witProg.ops, s = ComputeHash op.name op.args) ∧
    (Evaluate true witProg initState).1.usedHashes = [] :=
  evaluate_evicts_unused_exactly true witProg initState rfl

set_option maxRecDepth 8192 in
/-- Counterexample to claim C2 as stated: a session whose single
operation has the argument mapping `{ "x": "ptr" }`.  The serialized
arguments still contain `ptr` after sanitization, so `ComputeHash` runs
the `console.error` sanity branch, whose override posts `resetWorking`;
together with the one posted by the `finally` block the session emits two
`resetWorking` notifications, not exactly one. -/
theorem evaluate_reset_once_cex :
    countResetWorking (Evaluate true ptrStrProg initState).2 = 2 := by decide

/-- Claim C2 (amended): every evaluation session — including one in which
the compute function of some operation throws — still performs the
cache-eviction sweep (the usage set is reset and no entry with an
unrecorded signature survives) and emits exactly one `resetWorking`
notification, provided no operation of the session calls the overridden
`console.error`: neither the sanity branch of `ComputeHash`, nor a
compute-body diagnostic (`FilletEdges`/`ChamferEdges`/`GetWire`/
`GetSolidFromCompound`/`Difference` style), nor a guard diagnostic
(`Offset`/`RotatedExtrude`/`Slider`/early-return guards).  Each
`console.error` call posts one additional `resetWorking` through the
override. -/
theorem evaluate_reset_once_amended (gui : Bool) (p : UserProg) (st : WorkerState)
    (h : ∀ op ∈ p.ops, hashCheckFires op.args = false ∧ specResets op.compute = 0 ∧
      guardResets op.guard = 0) :
    countResetWorking (Evaluate gui p st).2 = 1 ∧
    (Evaluate gui p st).1.usedHashes = [] ∧
    (∀ s sh, lookupCache s ((Evaluate gui p st).1.argCache) = some sh →
        ((runCode p (sessionStart gui st)).2.1.usedHashes).contains s = true) := by
  rcases hrc : runCode p (sessionStart gui st) with ⟨out, mid, ms⟩
  have hev : Evaluate gui p st = (sweepCache mid, ms ++ [Msg.resetWorking]) := by
    unfold Evaluate
    rw [hrc]
  have hms : countResetWorking ms = 0 := by
    have hx := (runCode_state p (sessionStart gui st)).2
    rw [hrc] at hx
    have hz := runProg_resets_zero p.ops (sessionStart gui st) h
    have : countResetWorking ms = countResetWorking (runProg p.ops (sessionStart gui st)).2.2 := by
      rw [← hx]
    rw [this, hz]
  have hms' : ∀ a ∈ ms, (match a with | Msg.resetWorking => true | _ => false) = false := by
    simpa [countResetWorking, List.length_eq_zero, List.filter_eq_nil] using hms
  have hmid : (runCode p (sessionStart gui st)).2.1 = mid := by
    have hx := congrArg (fun r => r.2.1) hrc
    simpa using hx
  refine ⟨?_, ?_, ?_⟩
  · rw [hev]
    simp [countResetWorking_append, countResetWorking]
    exact hms'
  · rw [hev]; rfl
  · intro s sh hsome
    rw [hev] at hsome
    have hf := lookup_filter_key (fun k => mid.usedHashes.contains k) mid.argCache s
    have : (if mid.usedHashes.contains s then lookupCache s mid.argCache else none)
        = some sh := by
      rw [← hf]; exact hsome
    show mid.usedHashes.contains s = true
    by_cases hc : mid.usedHashes.contains s = true
    · exact hc
    · rw [if_neg hc] at this; cases this

/-- Witness for the amended C2 at a concrete input: a session whose
single operation's compute function throws still emits exactly one
`resetWorking` and still sweeps. -/
theorem evaluate_reset_once_amended_witness :
    countResetWorking (Evaluate true failProg initState).2 = 1 ∧
    (Evaluate true failProg initState).1.usedHashes = [] ∧
    (∀ s sh, lookupCache s ((Evaluate true failProg initState).1.argCache) = some sh →
        ((runCode failProg (sessionStart true initState)).2.1.usedHashes).contains s = true) :=
  evaluate_reset_once_amended true failProg initState (by decide)

set_option maxRecDepth 8192 in
/-- Counterexample to claim C3 as stated: entries survive the
end-of-session sweep by design, so a later session replaying the same
call pair starts with the signature already cached.  With caching
enabled and a warm cache, both identical `CacheOp` calls are hits and
the underlying compute function is invoked ZERO times (the invocation
counter does not move), not exactly once. -/
theorem cacheop_warm_zero_compute_cex :
    warmBoxState.guiCache = true ∧
    (CacheOp "Box" 2 boxArgs ComputeSpec.mkShape
        (CacheOp "Box" 1 boxArgs ComputeSpec.mkShape warmBoxState).2.1).2.1.computeCount =
      warmBoxState.computeCount := by decide

/-- Claim C3 (amended): with caching enabled, calling `CacheOp` twice
with the same operation name and argument mapping invokes the compute
function exactly once PROVIDED the signature is not already cached at
the first call (a cache warm from an earlier session serves both calls
and invokes it zero times); the second call returns a fresh duplicate
container — not the cached original's container — whose hash tag equals
the signature tag of the first call's result. -/
theorem cacheop_second_call_cached (name : String) (l1 l2 : Nat) (args : JVal)
    (st : WorkerState) (hg : st.guiCache = true)
    (hc : lookupCache (ComputeHash name args) st.argCache = none) :
    ∃ sh1 sh2 cached,
      (CacheOp name l1 args ComputeSpec.mkShape st).1 = Except.ok sh1 ∧
      (CacheOp name l2 args ComputeSpec.mkShape
          (CacheOp name l1 args ComputeSpec.mkShape st).2.1).1 = Except.ok sh2 ∧
      (CacheOp name l2 args ComputeSpec.mkShape
          (CacheOp name l1 args ComputeSpec.mkShape st).2.1).2.1.computeCount =
        st.computeCount + 1 ∧
      lookupCache (ComputeHash name args)
          ((CacheOp name l1 args ComputeSpec.mkShape st).2.1.argCache) = some cached ∧
      sh2.id ≠ cached.id ∧
      sh2.hash = sh1.hash ∧
      sh1.hash = some (ComputeHash name args) := by
  have h1 : CacheOp name l1 args ComputeSpec.mkShape st =
      (Except.ok ⟨st.nextId, st.nextId, some (ComputeHash name args), false⟩,
       { st with currentOp := name, currentLineNumber := l1,
                 opNumber := st.opNumber + 1,
                 usedHashes := insertHash (ComputeHash name args) st.usedHashes,
                 computeCount := st.computeCount + 1,
                 nextId := st.nextId + 2,
                 argCache := cacheInsert (ComputeHash name args)
                   ⟨st.nextId + 1, st.nextId, some (ComputeHash name args), false⟩
                   st.argCache },
       [Msg.progress st.opNumber (some name)] ++
         (if hashCheckFires args then
            consoleErrorTrace "YOU DONE MESSED UP YOUR REGEX." else []) ++
         [Msg.progress (st.opNumber + 1) none]) := by
    unfold CacheOp cacheMissStep
    dsimp only
    rw [hc]
    simp [runCompute, hg]
  refine ⟨⟨st.nextId, st.nextId, some (ComputeHash name args), false⟩,
          ⟨st.nextId + 2, st.nextId, some (ComputeHash name args), false⟩,
          ⟨st.nextId + 1, st.nextId, some (ComputeHash name args), false⟩,
          ?_, ?_, ?_, ?_, ?_, ?_, ?_⟩
  · rw [h1]
  · rw [h1]
    unfold CacheOp
    dsimp only
    rw [lookup_cacheInsert_self]
    simp [hg]
  · rw [h1]
    unfold CacheOp
    dsimp only
    rw [lookup_cacheInsert_self]
    simp [hg]
  · rw [h1]
    dsimp only
    exact lookup_cacheInsert_self _ _ _
  · simp
  · rfl
  · rfl

/-- Witness for the amended C3 at a concrete input: two identical `Box`
calls from the empty initial state (cold cache) with caching enabled. -/
theorem cacheop_second_call_cached_witness :
    ∃ sh1 sh2 cached,
      (CacheOp "Box" 1 boxArgs ComputeSpec.mkShape initState).1 = Except.ok sh1 ∧
      (CacheOp "Box" 2 boxArgs ComputeSpec.mkShape
          (CacheOp "Box" 1 boxArgs ComputeSpec.mkShape initState).2.1).1 = Except.ok sh2 ∧
      (CacheOp "Box" 2 boxArgs ComputeSpec.mkShape
          (CacheOp "Box" 1 boxArgs ComputeSpec.mkShape initState).2.1).2.1.computeCount =
        initState.computeCount + 1 ∧
      lookupCache (ComputeHash "Box" boxArgs)
          ((CacheOp "Box" 1 boxArgs ComputeSpec.mkShape initState).2.1.argCache) = some cached ∧
      sh2.id ≠ cached.id ∧
      sh2.hash = sh1.hash ∧
      sh1.hash = some (ComputeHash "Box" boxArgs) :=
  cacheop_second_call_cached "Box" 1 2 boxArgs initState rfl rfl

/-- Counterexample to claim C7 as stated: in the execution context (the
CAD worker), the dispatch `messageHandlers[e.data.type](e.data.payload)`
has no registration guard, so an unregistered message type raises a
TypeError rather than being ignored. -/
theorem worker_dispatch_unregistered_cex :
    (workerOnMessage Nat [("Evaluate", fun s => (s + 1, none))] "bogus" 0).1 =
      Except.error ⟨"TypeError: messageHandlers[e.data.type] is not a function"⟩ := rfl

/-- Claim C7 (amended): for an incoming message whose type has no
registered handler, the control-thread dispatch (guarded by
`e.data.type in messageHandlers`) ignores it without raising, produces
no response, and modifies no state; the execution-context dispatch
modifies no state either, but raises a TypeError instead of ignoring the
message. -/
theorem dispatch_unregistered_amended (σ : Type)
    (handlers : List (String × (σ → σ × Option Nat))) (ty : String) (st : σ)
    (h : handlers.find? (fun p => p.1 == ty) = none) :
    mainThreadOnMessage σ handlers ty st = (st, none) ∧
    workerOnMessage σ handlers ty st =
      (Except.error ⟨"TypeError: messageHandlers[e.data.type] is not a function"⟩, st) := by
  constructor <;> simp [mainThreadOnMessage, workerOnMessage, h]

/-- Witness for the amended C7 at a concrete input. -/
theorem dispatch_unregistered_amended_witness :
    mainThreadOnMessage Nat [("Evaluate", fun s => (s + 1, none))] "bogus" 0 = (0, none) ∧
    workerOnMessage Nat [("Evaluate", fun s => (s + 1, none))] "bogus" 0 =
      (Except.error ⟨"TypeError: messageHandlers[e.data.type] is not a function"⟩, 0) :=
  dispatch_unregistered_amended Nat [("Evaluate", fun s => (s + 1, none))] "bogus" 0 rfl

/-- Counterexample to claim C8 as stated: the scene accumulator is not
cleared at the start of an evaluation session — an `Evaluate` run over
empty user code leaves a previously non-empty accumulator untouched. -/
theorem evaluate_scene_not_cleared_cex :
    (Evaluate true ⟨[], none⟩ sceneState).1.sceneShapes = [shape0] := rfl

/-- Claim C8 (amended): the scene accumulator is NOT cleared at the start
of an evaluation session (a session leaves it exactly as the user code
leaves it); it is drained after a successful accumulation-and-mesh pass,
and left untouched when the pass (the tessellator) fails. -/
theorem scene_accumulator_lifecycle_amended :
    (∀ (gui : Bool) (st : WorkerState),
        (Evaluate gui ⟨[], none⟩ st).1.sceneShapes = st.sceneShapes) ∧
    (∀ (tess : List Shape → Except JsErr Nat) (st : WorkerState) (mesh : Nat),
        st.sceneShapes ≠ [] →
        tess (scanShapes st.sceneShapes).1 = Except.ok mesh →
        (combineAndRenderShapes tess st).2.1.sceneShapes = [] ∧
        (combineAndRenderShapes tess st).1 = Except.ok (some mesh)) ∧
    (∀ (tess : List Shape → Except JsErr Nat) (st : WorkerState) (e : JsErr),
        st.sceneShapes ≠ [] →
        tess (scanShapes st.sceneShapes).1 = Except.error e →
        (combineAndRenderShapes tess st).2.1.sceneShapes = st.sceneShapes ∧
        (combineAndRenderShapes tess st).1 = Except.error e) := by
  refine ⟨fun gui st => rfl, ?_, ?_⟩
  · intro tess st mesh hne htess
    have hlen : st.sceneShapes.length > 0 := List.length_pos.mpr hne
    unfold combineAndRenderShapes
    dsimp only
    rw [if_pos hlen]
    rcases hscan : scanShapes st.sceneShapes with ⟨valid, diag⟩
    rw [hscan] at htess
    simp at htess
    simp [htess]
  · intro tess st e hne htess
    have hlen : st.sceneShapes.length > 0 := List.length_pos.mpr hne
    unfold combineAndRenderShapes
    dsimp only
    rw [if_pos hlen]
    rcases hscan : scanShapes st.sceneShapes with ⟨valid, diag⟩
    rw [hscan] at htess
    simp at htess
    simp [htess]

/-- Witness for the amended C8 at concrete inputs: an empty session over
a non-empty accumulator, a succeeding pass, and a failing pass. -/
theorem scene_accumulator_lifecycle_amended_witness :
    (Evaluate true ⟨[], none⟩ sceneState).1.sceneShapes = sceneState.sceneShapes ∧
    ((combineAndRenderShapes (fun _ => Except.ok 5) sceneState).2.1.sceneShapes = [] ∧
     (combineAndRenderShapes (fun _ => Except.ok 5) sceneState).1 = Except.ok (some 5)) ∧
    ((combineAndRenderShapes (fun _ => Except.error ⟨"mesh fail"⟩) sceneState).2.1.sceneShapes =
        sceneState.sceneShapes ∧
     (combineAndRenderShapes (fun _ => Except.error ⟨"mesh fail"⟩) sceneState).1 =
        Except.error ⟨"mesh fail"⟩) :=
  ⟨scene_accumulator_lifecycle_amended.1 true sceneState,
   scene_accumulator_lifecycle_amended.2.1 (fun _ => Except.ok 5) sceneState 5
     (by decide) rfl,
   scene_accumulator_lifecycle_amended.2.2 (fun _ => Except.error ⟨"mesh fail"⟩) sceneState
     ⟨"mesh fail"⟩ (by decide) rfl⟩

/-- Claim C9: when the scene accumulator is empty at the start of an
accumulation pass, the pass reports a diagnostic (`console.error`) and
yields the explicit "no shapes" result `undefined` (here `none`) to the
caller rather than raising. -/
theorem combine_empty_no_shapes (tess : List Shape → Except JsErr Nat)
    (st : WorkerState) (h : st.sceneShapes = []) :
    (combineAndRenderShapes tess st).1 = Except.ok none ∧
    Msg.errorDiag "There were no scene shapes returned!" ∈
      (combineAndRenderShapes tess st).2.2 ∧
    (combineAndRenderShapes tess st).2.1.sceneShapes = [] := by
  unfold combineAndRenderShapes
  dsimp only
  rw [h]
  simp [consoleErrorTrace]

/-- Witness for C9 at a concrete input: the empty initial state. -/
theorem combine_empty_no_shapes_witness :
    (combineAndRenderShapes (fun _ => Except.ok 5) initState).1 = Except.ok none ∧
    Msg.errorDiag "There were no scene shapes returned!" ∈
      (combineAndRenderShapes (fun _ => Except.ok 5) initState).2.2 ∧
    (combineAndRenderShapes (fun _ => Except.ok 5) initState).2.1.sceneShapes = [] :=
  combine_empty_no_shapes (fun _ => Except.ok 5) initState rfl

set_option maxRecDepth 8192 in
/-- Counterexample to claim C10 as stated: when a cache entry already
sits under the Text3D signature (reachable via a hash collision or via
user code touching the worker globals) and caching is enabled, the call
is served from the cache — the font table is never consulted, the cache
is not erased, and a Shape is returned and pushed, even though the font
is not loaded. -/
theorem text3d_missing_font_cex :
    (Text3D "hi" 36 1 "Consolas" 3 warmFontlessState).1 =
        Except.ok ⟨10, 7, some hText, false⟩ ∧
    (Text3D "hi" 36 1 "Consolas" 3 warmFontlessState).2.1.argCache =
        [(hText, cachedText)] := by
  exact ⟨rfl, rfl⟩

/-- Claim C10 (amended): for every `Text3D` call whose named font is not
loaded and which is not served from the cache (no entry under its
signature, or caching disabled), the compute body replaces the entire
operation cache with an empty map (`setArgCache({})`), `CacheOp` then
fails with a TypeError when stamping the signature onto the `undefined`
compute result, no Shape is returned, and the push into the scene
accumulator is never reached. -/
theorem text3d_missing_font_amended (text : String) (size height : Int)
    (fontName : String) (line : Nat) (st : WorkerState)
    (hf : st.fonts.contains fontName = false)
    (h : lookupCache (ComputeHash "Text3D" (text3dArgs text size height fontName))
           st.argCache = none
         ∨ st.guiCache = false) :
    (Text3D text size height fontName line st).1 = Except.error stampErr ∧
    (Text3D text size height fontName line st).2.1.argCache = [] ∧
    (Text3D text size height fontName line st).2.1.sceneShapes = st.sceneShapes := by
  have hf' : fontName ∉ st.fonts := by simpa using hf
  unfold Text3D runOp runOpCore CacheOp cacheMissStep
  dsimp only
  rcases h with h | h
  · rw [h]
    simp [runCompute, hf']
  · rw [h]
    cases hl : lookupCache (ComputeHash "Text3D" (text3dArgs text size height fontName))
        st.argCache <;>
      simp [runCompute, hf']

/-- Witness for the amended C10 at a concrete input: the empty initial
state (cold cache, no fonts loaded). -/
theorem text3d_missing_font_amended_witness :
    (Text3D "hi" 36 1 "Consolas" 3 initState).1 = Except.error stampErr ∧
    (Text3D "hi" 36 1 "Consolas" 3 initState).2.1.argCache = [] ∧
    (Text3D "hi" 36 1 "Consolas" 3 initState).2.1.sceneShapes = initState.sceneShapes :=
  text3d_missing_font_amended "hi" 36 1 "Consolas" 3 initState rfl (Or.inl rfl)

theorem headIs_some (c : Char) (cs t : List Char) :
    headIs c cs = some t → cs = c :: t := by
  cases cs with
  | nil => simp [headIs]
  | cons d t' =>
    simp only [headIs]
    by_cases hd : d = c
    · subst hd; simp
    · simp [hd]

theorem matchPrefix6_key (r : List Char) : matchPrefix6 (ptrKey ++ r) = some r := rfl

theorem matchPrefix6_eq_some (cs r : List Char) :
    matchPrefix6 cs = some r → cs = ptrKey ++ r := by
  intro h
  unfold matchPrefix6 at h
  rcases Option.bind_eq_some.mp h with ⟨t5, h5, hz⟩
  rcases Option.bind_eq_some.mp h5 with ⟨t4, h4, h5'⟩
  rcases Option.bind_eq_some.mp h4 with ⟨t3, h3, h4'⟩
  rcases Option.bind_eq_some.mp h3 with ⟨t2, h2, h3'⟩
  rcases Option.bind_eq_some.mp h2 with ⟨t1, h1, h2'⟩
  have e1 := headIs_some _ _ _ h1
  have e2 := headIs_some _ _ _ h2'
  have e3 := headIs_some _ _ _ h3'
  have e4 := headIs_some _ _ _ h4'
  have e5 := headIs_some _ _ _ h5'
  have e6 := headIs_some _ _ _ hz
  subst e6; subst e5; subst e4; subst e3; subst e2; subst e1
  rfl

theorem matchPrefix6_not_ambiguous (s : List Char) (hs : s ≠ [])
    (ha : ambiguous s = false) (t : List Char) :
    matchPrefix6 (s ++ t) = none := by
  cases hm : matchPrefix6 (s ++ t) with
  | none => rfl
  | some r =>
    exfalso
    have heq := matchPrefix6_eq_some _ _ hm
    have hpre1 : ptrKey <+: s ++ t := ⟨r, heq.symm⟩
    have hpre2 : s <+: s ++ t := ⟨t, rfl⟩
    have := List.prefix_or_prefix_of_prefix hpre2 hpre1
    unfold ambiguous at ha
    rcases Bool.or_eq_false_iff.mp ha with ⟨ha1, ha2⟩
    rcases this with hp | hp
    · rw [← List.isPrefixOf_iff_prefix] at hp
      rw [hp] at ha1; cases ha1
    · rw [← List.isPrefixOf_iff_prefix] at hp
      rw [hp] at ha2; cases ha2

theorem matchPtr1_not_ambiguous (s : List Char) (hs : s ≠ [])
    (ha : ambiguous s = false) (t : List Char) :
    matchPtr1 (s ++ t) = none := by
  unfold matchPtr1
  rw [matchPrefix6_not_ambiguous s hs ha t]

theorem matchPtr2_not_ambiguous (s : List Char) (hs : s ≠ [])
    (ha : ambiguous s = false) (t : List Char) :
    matchPtr2 (s ++ t) = none := by
  unfold matchPtr2
  rw [matchPrefix6_not_ambiguous s hs ha t]

theorem dropWhile_length_le (p : Char → Bool) (l : List Char) :
    (l.dropWhile p).length ≤ l.length := by
  induction l with
  | nil => simp
  | cons a t ih =>
    by_cases hp : p a = true
    · simp [List.dropWhile, hp]; omega
    · simp [List.dropWhile, hp]

theorem matchNum1_some_length (cs r : List Char) :
    matchNum1 cs = some r → r.length + 1 ≤ cs.length := by
  intro h
  unfold matchNum1 at h
  have hdm : (dropMinus cs).length ≤ cs.length := by
    cases cs with
    | nil => simp [dropMinus]
    | cons c t => simp only [dropMinus]; split <;> simp
  have hdw : (List.dropWhile isDig (dropMinus cs)).length ≤ (dropMinus cs).length :=
    dropWhile_length_le _ _
  cases hw : List.dropWhile isDig (dropMinus cs) with
  | nil => rw [hw] at h; cases h
  | cons c r' =>
    rw [hw] at h
    by_cases hc : c = ','
    · subst hc
      simp at h
      subst h
      rw [hw] at hdw
      simp at hdw
      omega
    · simp [hc] at h

theorem matchPtr1_some_length (cs r : List Char) :
    matchPtr1 cs = some r → r.length + 7 ≤ cs.length := by
  intro h
  unfold matchPtr1 at h
  cases hp : matchPrefix6 cs with
  | none => rw [hp] at h; cases h
  | some rest =>
    rw [hp] at h
    have heq := matchPrefix6_eq_some _ _ hp
    have hlen : cs.length = rest.length + 6 := by
      rw [heq]; simp [ptrKey]
    have := matchNum1_some_length _ _ h
    omega

theorem matchPtr2_some_length (cs r : List Char) :
    matchPtr2 cs = some r → r.length + 6 ≤ cs.length := by
  intro h
  unfold matchPtr2 at h
  cases hp : matchPrefix6 cs with
  | none => rw [hp] at h; cases h
  | some rest =>
    rw [hp] at h
    have heq := matchPrefix6_eq_some _ _ hp
    have hlen : cs.length = rest.length + 6 := by
      rw [heq]; simp [ptrKey]
    have hr : r = dropMinusDigits rest := by
      simpa using h.symm
    have hdm : (dropMinus rest).length ≤ rest.length := by
      cases rest with
      | nil => simp [dropMinus]
      | cons c t => simp only [dropMinus]; split <;> simp
    have hdw : (List.dropWhile isDig (dropMinus rest)).length ≤ (dropMinus rest).length :=
      dropWhile_length_le _ _
    have : r.length ≤ rest.length := by
      rw [hr]; unfold dropMinusDigits; omega
    omega

theorem strip1Go_congr : ∀ (f1 : Nat) (cs : List Char) (f2 : Nat),
    cs.length ≤ f1 → cs.length ≤ f2 → strip1Go f1 cs = strip1Go f2 cs := by
  intro f1
  induction f1 with
  | zero =>
    intro cs f2 h1 _
    have : cs = [] := by
      cases cs with
      | nil => rfl
      | cons c t => simp at h1
    subst this
    cases f2 <;> simp [strip1Go]
  | succ k ih =>
    intro cs f2 h1 h2
    cases cs with
    | nil => cases f2 <;> simp [strip1Go]
    | cons c t =>
      have hf2 : ∃ j, f2 = j + 1 := by
        cases f2 with
        | zero => simp at h2
        | succ j => exact ⟨j, rfl⟩
      rcases hf2 with ⟨j, rfl⟩
      simp only [strip1Go]
      cases hm : matchPtr1 (c :: t) with
      | some rest =>
        have hl := matchPtr1_some_length _ _ hm
        simp at hl h1 h2
        exact ih rest j (by omega) (by omega)
      | none =>
        have := ih t j (by simp at h1; omega) (by simp at h2; omega)
        rw [this]

theorem strip2Go_congr : ∀ (f1 : Nat) (cs : List Char) (f2 : Nat),
    cs.length ≤ f1 → cs.length ≤ f2 → strip2Go f1 cs = strip2Go f2 cs := by
  intro f1
  induction f1 with
  | zero =>
    intro cs f2 h1 _
    have : cs = [] := by
      cases cs with
      | nil => rfl
      | cons c t => simp at h1
    subst this
    cases f2 <;> simp [strip2Go]
  | succ k ih =>
    intro cs f2 h1 h2
    cases cs with
    | nil => cases f2 <;> simp [strip2Go]
    | cons c t =>
      have hf2 : ∃ j, f2 = j + 1 := by
        cases f2 with
        | zero => simp at h2
        | succ j => exact ⟨j, rfl⟩
      rcases hf2 with ⟨j, rfl⟩
      simp only [strip2Go]
      cases hm : matchPtr2 (c :: t) with
      | some rest =>
        have hl := matchPtr2_some_length _ _ hm
        simp at hl h1 h2
        exact ih rest j (by omega) (by omega)
      | none =>
        have := ih t j (by simp at h1; omega) (by simp at h2; omega)
        rw [this]

theorem strip1_cons_none (c : Char) (cs : List Char)
    (h : matchPtr1 (c :: cs) = none) :
    stripPtr1 (c :: cs) = c :: stripPtr1 cs := by
  unfold stripPtr1
  simp only [List.length_cons, strip1Go, h]

theorem strip1_match (cs r : List Char) (h : matchPtr1 cs = some r) :
    stripPtr1 cs = stripPtr1 r := by
  have hl := matchPtr1_some_length _ _ h
  cases cs with
  | nil => simp [matchPtr1, matchPrefix6, headIs] at h
  | cons c t =>
    unfold stripPtr1
    simp only [List.length_cons, strip1Go, h]
    exact strip1Go_congr _ _ _ (by simp at hl ⊢; omega) (le_refl _)

theorem strip2_cons_none (c : Char) (cs : List Char)
    (h : matchPtr2 (c :: cs) = none) :
    stripPtr2 (c :: cs) = c :: stripPtr2 cs := by
  unfold stripPtr2
  simp only [List.length_cons, strip2Go, h]

theorem strip2_match (cs r : List Char) (h : matchPtr2 cs = some r) :
    stripPtr2 cs = stripPtr2 r := by
  have hl := matchPtr2_some_length _ _ h
  cases cs with
  | nil => simp [matchPtr2, matchPrefix6, headIs] at h
  | cons c t =>
    unfold stripPtr2
    simp only [List.length_cons, strip2Go, h]
    exact strip2Go_congr _ _ _ (by simp at hl ⊢; omega) (le_refl _)

theorem clean_cons (c : Char) (rest : List Char) (h : clean (c :: rest) = true) :
    ambiguous (c :: rest) = false ∧ clean rest = true := by
  unfold clean at h
  rcases Bool.and_eq_true_iff.mp h with ⟨h1, h2⟩
  exact ⟨by simpa using h1, h2⟩

theorem strip1_clean_append : ∀ (p : List Char), clean p = true →
    ∀ t, stripPtr1 (p ++ t) = p ++ stripPtr1 t := by
  intro p
  induction p with
  | nil => intro _ t; simp
  | cons c rest ih =>
    intro hc t
    obtain ⟨ha, hcr⟩ := clean_cons c rest hc
    have hm : matchPtr1 (c :: (rest ++ t)) = none := by
      have := matchPtr1_not_ambiguous (c :: rest) (by simp) ha t
      simpa using this
    calc stripPtr1 ((c :: rest) ++ t) = stripPtr1 (c :: (rest ++ t)) := rfl
      _ = c :: stripPtr1 (rest ++ t) := strip1_cons_none c (rest ++ t) hm
      _ = c :: (rest ++ stripPtr1 t) := by rw [ih hcr t]
      _ = (c :: rest) ++ stripPtr1 t := rfl

theorem strip2_clean_append : ∀ (p : List Char), clean p = true →
    ∀ t, stripPtr2 (p ++ t) = p ++ stripPtr2 t := by
  intro p
  induction p with
  | nil => intro _ t; simp
  | cons c rest ih =>
    intro hc t
    obtain ⟨ha, hcr⟩ := clean_cons c rest hc
    have hm : matchPtr2 (c :: (rest ++ t)) = none := by
      have := matchPtr2_not_ambiguous (c :: rest) (by simp) ha t
      simpa using this
    calc stripPtr2 ((c :: rest) ++ t) = stripPtr2 (c :: (rest ++ t)) := rfl
      _ = c :: stripPtr2 (rest ++ t) := strip2_cons_none c (rest ++ t) hm
      _ = c :: (rest ++ stripPtr2 t) := by rw [ih hcr t]
      _ = (c :: rest) ++ stripPtr2 t := rfl

theorem clean_of_no_quote : ∀ (p : List Char), (∀ c ∈ p, c ≠ '"') →
    clean p = true := by
  intro p
  induction p with
  | nil => intro _; rfl
  | cons c rest ih =>
    intro h
    have hc : c ≠ '"' := h c (by simp)
    have hcb : (c == '"') = false := by simp [hc]
    have hqb : ('"' == c) = false := by
      simp
      exact fun he => hc he.symm
    unfold clean
    have ha : ambiguous (c :: rest) = false := by
      unfold ambiguous
      simp [ptrKey, List.isPrefixOf, hcb, hqb]
    rw [ha]
    simp [ih (fun x hx => h x (by simp [hx]))]

theorem digitChar_isDig (n : Nat) (h : n < 10) :
    isDig (Char.ofNat (48 + n)) = true := by
  interval_cases n <;> decide

theorem digitChar_ne_quote (n : Nat) (h : n < 10) :
    Char.ofNat (48 + n) ≠ '"' := by
  interval_cases n <;> decide

theorem natDigitsGo_digits : ∀ (f n : Nat) (c : Char),
    c ∈ natDigitsGo f n → isDig c = true := by
  intro f
  induction f with
  | zero => intro n c h; simp [natDigitsGo] at h
  | succ k ih =>
    intro n c h
    unfold natDigitsGo at h
    by_cases hn : n < 10
    · rw [if_pos hn] at h
      simp at h
      subst h
      exact digitChar_isDig n hn
    · rw [if_neg hn] at h
      simp at h
      rcases h with h | h
      · exact ih _ _ h
      · subst h
        exact digitChar_isDig _ (Nat.mod_lt _ (by norm_num))

theorem natDigits_digits (n : Nat) (c : Char) (h : c ∈ natDigits n) :
    isDig c = true :=
  natDigitsGo_digits _ _ _ h

theorem isDig_ne_quote (c : Char) (h : isDig c = true) : c ≠ '"' := by
  intro hc
  subst hc
  exact absurd h (by decide)

theorem isDig_ne_minus (c : Char) (h : isDig c = true) : c ≠ '-' := by
  intro hc
  subst hc
  exact absurd h (by decide)

theorem natDigits_ne_nil (n : Nat) : natDigits n ≠ [] := by
  unfold natDigits natDigitsGo
  by_cases hn : n < 10 <;> simp [hn]

theorem dropWhile_digits_append (dl : List Char)
    (hd : ∀ c ∈ dl, isDig c = true) (r : List Char) :
    List.dropWhile isDig (dl ++ r) = List.dropWhile isDig r := by
  induction dl with
  | nil => simp
  | cons c t ih =>
    have hc : isDig c = true := hd c (by simp)
    simp only [List.cons_append, List.dropWhile, hc]
    exact ih (fun x hx => hd x (by simp [hx]))

theorem intChars_no_quote (n : Int) : ∀ c ∈ intChars n, c ≠ '"' := by
  intro c hc
  unfold intChars at hc
  split at hc
  · simp at hc
    rcases hc with hc | hc
    · subst hc; decide
    · exact isDig_ne_quote _ (natDigits_digits _ _ hc)
  · exact isDig_ne_quote _ (natDigits_digits _ _ hc)

theorem dropMinusDigits_intChars (n : Int) (r : List Char) :
    dropMinusDigits (intChars n ++ r) = List.dropWhile isDig r := by
  unfold dropMinusDigits intChars
  by_cases hn : n < 0
  · rw [if_pos hn]
    show List.dropWhile isDig (dropMinus ('-' :: (natDigits n.natAbs ++ r))) = _
    simp only [dropMinus]
    rw [if_pos (by rfl)]
    exact dropWhile_digits_append _ (fun c h => natDigits_digits _ c h) r
  · rw [if_neg hn]
    rcases hex : natDigits n.toNat with _ | ⟨c, cs⟩
    · exact absurd hex (natDigits_ne_nil _)
    · have hcd : isDig c = true := natDigits_digits n.toNat c (by rw [hex]; simp)
      have hcm : (c == '-') = false := by simp [isDig_ne_minus c hcd]
      show List.dropWhile isDig (dropMinus ((c :: cs) ++ r)) = _
      simp only [List.cons_append, dropMinus, hcm]
      have hall : ∀ x ∈ c :: cs, isDig x = true := by
        intro x hx
        rw [← hex] at hx
        exact natDigits_digits _ _ hx
      have := dropWhile_digits_append (c :: cs) hall r
      simpa using this

theorem matchNum1_intChars (n : Int) (r : List Char) :
    matchNum1 (intChars n ++ r) =
      (match List.dropWhile isDig r with
       | [] => none
       | c :: r' => if c == ',' then some r' else none) := by
  show (match dropMinusDigits (intChars n ++ r) with
        | [] => none
        | c :: r' => if c == ',' then some r' else none) = _
  rw [dropMinusDigits_intChars]

theorem matchPtr1_key (rest : List Char) :
    matchPtr1 (ptrKey ++ rest) = matchNum1 rest := by
  simp [matchPtr1, matchPrefix6_key]

theorem matchPtr2_key (rest : List Char) :
    matchPtr2 (ptrKey ++ rest) = some (dropMinusDigits rest) := by
  simp [matchPtr2, matchPrefix6_key]

theorem stringify_objPtrLast (n : Int) :
    stringifyV (objPtrLast n) =
      ['{', '"', 'a', '"', ':', '1', ','] ++ ptrKey ++ (intChars n ++ ['}']) := rfl

theorem intChars_one : intChars (1 : Int) = ['1'] := rfl

theorem intChars_two : intChars (2 : Int) = ['2'] := rfl

theorem intChars_three : intChars (3 : Int) = ['3'] := rfl

theorem stringify_objPtrFirst (n : Int) :
    stringifyV (objPtrFirst n) =
      ['{'] ++ ptrKey ++ (intChars n ++ (',' :: ['"', 'a', '"', ':', '1', '}'])) := by
  simp [objPtrFirst, stringifyV, stringifyO, escChars, escChar, ptrKey, intChars_one]

theorem stringify_objNested (n : Int) :
    stringifyV (objNested n) =
      ['{', '"', 'b', '"', ':', '{', '"', 'c', '"', ':', '2', ','] ++ ptrKey ++
        (intChars n ++ ['}', ',', '"', 'd', '"', ':', '3', '}']) := by
  simp [objNested, stringifyV, stringifyO, escChars, escChar, ptrKey, intChars_two, intChars_three]

theorem sanitized_objPtrLast (n : Int) :
    sanitizedArgs (objPtrLast n) = ['{', '"', 'a', '"', ':', '1', ',', '}'] := by
  have hclean1 : clean ['{', '"', 'a', '"', ':', '1', ','] = true := by decide
  have hclean2 : clean ['p', 't', 'r', '"', ':'] = true := by decide
  have hcleanD : clean (intChars n) = true :=
    clean_of_no_quote _ (intChars_no_quote n)
  have hm1 : matchPtr1 (ptrKey ++ (intChars n ++ ['}'])) = none := by
    rw [matchPtr1_key, matchNum1_intChars]; decide
  have hstrip1 : stripPtr1 (ptrKey ++ (intChars n ++ ['}'])) =
      ptrKey ++ (intChars n ++ ['}']) := by
    calc stripPtr1 (ptrKey ++ (intChars n ++ ['}']))
        = '"' :: stripPtr1 (['p', 't', 'r', '"', ':'] ++ (intChars n ++ ['}'])) :=
          strip1_cons_none '"' (['p', 't', 'r', '"', ':'] ++ (intChars n ++ ['}'])) hm1
      _ = '"' :: (['p', 't', 'r', '"', ':'] ++ stripPtr1 (intChars n ++ ['}'])) := by
          rw [strip1_clean_append _ hclean2]
      _ = '"' :: (['p', 't', 'r', '"', ':'] ++ (intChars n ++ stripPtr1 ['}'])) := by
          rw [strip1_clean_append _ hcleanD]
      _ = ptrKey ++ (intChars n ++ ['}']) := rfl
  have hm2 : matchPtr2 (ptrKey ++ (intChars n ++ ['}'])) = some ['}'] := by
    rw [matchPtr2_key, dropMinusDigits_intChars]; decide
  unfold sanitizedArgs
  rw [stringify_objPtrLast, List.append_assoc]
  rw [strip1_clean_append _ hclean1, hstrip1]
  rw [strip2_clean_append _ hclean1]
  rw [strip2_match _ _ hm2]
  rfl

theorem sanitized_objPtrFirst (n : Int) :
    sanitizedArgs (objPtrFirst n) = ['{', '"', 'a', '"', ':', '1', '}'] := by
  have hclean0 : clean ['{'] = true := by decide
  have hm1 : matchPtr1 (ptrKey ++ (intChars n ++ (',' :: ['"', 'a', '"', ':', '1', '}']))) =
      some ['"', 'a', '"', ':', '1', '}'] := by
    rw [matchPtr1_key, matchNum1_intChars]; decide
  unfold sanitizedArgs
  rw [stringify_objPtrFirst, List.append_assoc]
  rw [strip1_clean_append _ hclean0]
  rw [strip1_match _ _ hm1]
  rw [show stripPtr1 ['"', 'a', '"', ':', '1', '}'] = ['"', 'a', '"', ':', '1', '}'] from rfl]
  rw [show (['{'] : List Char) ++ ['"', 'a', '"', ':', '1', '}'] =
      ['{', '"', 'a', '"', ':', '1', '}'] from rfl]
  rfl

theorem sanitized_objNoPtr :
    sanitizedArgs objNoPtr = ['{', '"', 'a', '"', ':', '1', '}'] := rfl

theorem sanitized_objNested (n : Int) :
    sanitizedArgs (objNested n) =
      ['{', '"', 'b', '"', ':', '{', '"', 'c', '"', ':', '2', ','] ++
        ['}', ',', '"', 'd', '"', ':', '3', '}'] := by
  have hclean3 : clean ['{', '"', 'b', '"', ':', '{', '"', 'c', '"', ':', '2', ','] = true := by
    decide
  have hclean2 : clean ['p', 't', 'r', '"', ':'] = true := by decide
  have hcleanD : clean (intChars n) = true :=
    clean_of_no_quote _ (intChars_no_quote n)
  have hm1 : matchPtr1 (ptrKey ++ (intChars n ++ ['}', ',', '"', 'd', '"', ':', '3', '}'])) =
      none := by
    rw [matchPtr1_key, matchNum1_intChars]; decide
  have hstrip1 : stripPtr1 (ptrKey ++ (intChars n ++ ['}', ',', '"', 'd', '"', ':', '3', '}'])) =
      ptrKey ++ (intChars n ++ ['}', ',', '"', 'd', '"', ':', '3', '}']) := by
    calc stripPtr1 (ptrKey ++ (intChars n ++ ['}', ',', '"', 'd', '"', ':', '3', '}']))
        = '"' :: stripPtr1 (['p', 't', 'r', '"', ':'] ++
            (intChars n ++ ['}', ',', '"', 'd', '"', ':', '3', '}'])) :=
          strip1_cons_none '"'
            (['p', 't', 'r', '"', ':'] ++ (intChars n ++ ['}', ',', '"', 'd', '"', ':', '3', '}']))
            hm1
      _ = '"' :: (['p', 't', 'r', '"', ':'] ++
            stripPtr1 (intChars n ++ ['}', ',', '"', 'd', '"', ':', '3', '}'])) := by
          rw [strip1_clean_append _ hclean2]
      _ = '"' :: (['p', 't', 'r', '"', ':'] ++
            (intChars n ++ stripPtr1 ['}', ',', '"', 'd', '"', ':', '3', '}'])) := by
          rw [strip1_clean_append _ hcleanD]
      _ = ptrKey ++ (intChars n ++ ['}', ',', '"', 'd', '"', ':', '3', '}']) := rfl
  have hm2 : matchPtr2 (ptrKey ++ (intChars n ++ ['}', ',', '"', 'd', '"', ':', '3', '}'])) =
      some ['}', ',', '"', 'd', '"', ':', '3', '}'] := by
    rw [matchPtr2_key, dropMinusDigits_intChars]; decide
  unfold sanitizedArgs
  rw [stringify_objNested, List.append_assoc]
  rw [strip1_clean_append _ hclean3, hstrip1]
  rw [strip2_clean_append _ hclean3]
  rw [strip2_match _ _ hm2]
  rfl

set_option maxRecDepth 8192 in
/-- Counterexample to claim C4 as stated: two argument mappings that
differ only in the PRESENCE of a (trailing) numeric ptr field hash
differently — stripping the trailing `"ptr":5` leaves a dangling comma
(`{"a":1,}` versus `{"a":1}`), so the signatures disagree. -/
theorem computehash_ptr_presence_cex :
    ComputeHash "f" (objPtrLast 5) ≠ ComputeHash "f" objNoPtr := by decide

/-- Claim C4 (amended): `ComputeHash` is deterministic, and the signature
is independent of the numeric VALUE of a ptr field — for any two integer
values (also at nesting depth two, and whether the ptr field is leading
or trailing) the signatures coincide; removing a ptr field entirely
preserves the signature only when the field is followed by another field
(its trailing comma is stripped with it); a trailing ptr field leaves a
dangling comma in the sanitized form, so presence-invariance fails
there. -/
theorem computehash_ptr_amended :
    (∀ (name : String) (a : JVal), ComputeHash name a = ComputeHash name a) ∧
    (∀ n m : Int, ComputeHash "f" (objPtrLast n) = ComputeHash "f" (objPtrLast m)) ∧
    (∀ n m : Int, ComputeHash "f" (objPtrFirst n) = ComputeHash "f" (objPtrFirst m)) ∧
    (∀ n : Int, ComputeHash "f" (objPtrFirst n) = ComputeHash "f" objNoPtr) ∧
    (∀ n m : Int, ComputeHash "g" (objNested n) = ComputeHash "g" (objNested m)) := by
  refine ⟨fun _ _ => rfl, ?_, ?_, ?_, ?_⟩
  · intro n m
    unfold ComputeHash hashStringOf
    rw [sanitized_objPtrLast n, sanitized_objPtrLast m]
  · intro n m
    unfold ComputeHash hashStringOf
    rw [sanitized_objPtrFirst n, sanitized_objPtrFirst m]
  · intro n
    unfold ComputeHash hashStringOf
    rw [sanitized_objPtrFirst n, sanitized_objNoPtr]
  · intro n m
    unfold ComputeHash hashStringOf
    rw [sanitized_objNested n, sanitized_objNested m]
